import Mathlib

set_option maxHeartbeats 1000000

/- Verification development for the helloworld-click-client repository.
   Shallow embedding of resp_fmt.py, cmd_run.py, orchestrator_comm.py and
   cli_ctrl.py.  Interactive inputs (prompts, confirmations) and the
   operating system boundary (child processes, the middleware function)
   are passed in as explicit parameters. -/

/-! ## Python string helpers -/

/-- Python default whitespace set used by str.strip (ASCII part). -/
def isPyWs (c : Char) : Bool :=
  c == ' ' || c == '\t' || c == '\n' || c == '\r' || c == '\x0b' || c == '\x0c'

/-- Python str.strip with the default whitespace set. -/
def pyStrip (s : String) : String :=
  String.mk (((s.data.dropWhile isPyWs).reverse.dropWhile isPyWs).reverse)

/-- Python slicing s[:256], as used for the clarify prompt input. -/
def take256 (s : String) : String := String.mk (s.data.take 256)

/-- Boolean test: does hay start with needle. -/
def leadsWith : List Char → List Char → Bool
  | [], _ => true
  | _ :: _, [] => false
  | a :: n, b :: h => a == b && leadsWith n h

/-- Boolean test: does needle occur as a contiguous run inside hay. -/
def listContains (needle : List Char) : List Char → Bool
  | [] => needle.isEmpty
  | c :: t => leadsWith needle (c :: t) || listContains needle t

/-! ## A small backtracking matcher for the concrete regular expressions
    of resp_fmt.py.  Quantifiers in those patterns only ever apply to
    single-character classes, so the pattern language needs nothing more.
    Alternatives are tried in Python's preference order (greedy
    quantifiers prefer consuming, lazy ones prefer not consuming), so a
    successful result is the same match Python's re engine returns. -/

/-- Character classes appearing in the patterns of resp_fmt.py. -/
inductive CCls where
  | word
  | wordDash
  | ws
  | anyc
  | ch (c : Char)
  | notCh (c : Char)
deriving DecidableEq

/-- Whether a character belongs to a class.  word models \w, ws models \s,
    anyc models . under DOTALL. -/
def cmatch : CCls → Char → Bool
  | .word, c => c.isAlphanum || c == '_'
  | .wordDash, c => c.isAlphanum || c == '_' || c == '-'
  | .ws, c => c == ' ' || c == '\t' || c == '\n' || c == '\r' || c == '\x0b' || c == '\x0c'
  | .anyc, _ => true
  | .ch a, c => c == a
  | .notCh a, c => !(c == a)

/-- Pattern items: a single class, a greedy optional class, lazy and greedy
    stars, a greedy plus, and the open/close markers of capture group 1. -/
inductive RItem where
  | one (cc : CCls)
  | optG (cc : CCls)
  | starL (cc : CCls)
  | starG (cc : CCls)
  | plusG (cc : CCls)
  | gOpen
  | gClose
deriving DecidableEq

/-- Match results: characters consumed, and the offsets (relative to the
    start of the attempt) at which group 1 opened and closed. -/
abbrev MRes := Nat × Option Nat × Option Nat

/-- Shift a result of a sub-match that started one character later. -/
def shift1 : MRes → MRes
  | (n, a, b) => (n + 1, a.map (· + 1), b.map (· + 1))

/-- First-success choice, the backtracking preference order. -/
def oor : Option α → Option α → Option α
  | some r, _ => some r
  | none, y => y

/-- Matching against the empty remainder of the input. -/
def mrunNil : List RItem → Option MRes
  | [] => some (0, none, none)
  | .gOpen :: rest => (mrunNil rest).map (fun r => (r.1, some 0, r.2.2))
  | .gClose :: rest => (mrunNil rest).map (fun r => (r.1, r.2.1, some 0))
  | .one _ :: _ => none
  | .optG _ :: rest => mrunNil rest
  | .starL _ :: rest => mrunNil rest
  | .starG _ :: rest => mrunNil rest
  | .plusG _ :: _ => none

/-- Matching against a non-empty input c :: t, where next matches item
    lists against t. -/
def mrunCons (c : Char) (next : List RItem → Option MRes) :
    List RItem → Option MRes
  | [] => some (0, none, none)
  | .gOpen :: rest => (mrunCons c next rest).map (fun r => (r.1, some 0, r.2.2))
  | .gClose :: rest => (mrunCons c next rest).map (fun r => (r.1, r.2.1, some 0))
  | .one cc :: rest => if cmatch cc c then (next rest).map shift1 else none
  | .optG cc :: rest =>
      if cmatch cc c then oor ((next rest).map shift1) (mrunCons c next rest)
      else mrunCons c next rest
  | .starL cc :: rest =>
      oor (mrunCons c next rest)
        (if cmatch cc c then (next (.starL cc :: rest)).map shift1 else none)
  | .starG cc :: rest =>
      oor (if cmatch cc c then (next (.starG cc :: rest)).map shift1 else none)
        (mrunCons c next rest)
  | .plusG cc :: rest =>
      if cmatch cc c then
        oor ((next (.plusG cc :: rest)).map shift1) ((next rest).map shift1)
      else none

/-- Anchored match attempt of an item list at the start of the input. -/
def mrun : List Char → List RItem → Option MRes
  | [], items => mrunNil items
  | c :: t, items => mrunCons c (mrun t) items

/-- A match found by a search: absolute start and stop offsets, and the
    absolute span of capture group 1 when it participated. -/
structure Span where
  start : Nat
  stop : Nat
  g1 : Option (Nat × Nat)
deriving DecidableEq

/-- Searching for the leftmost match, attempting positions pos, pos+1, ...
    like Python re.search; fuel bounds the number of attempts. -/
def searchAux (items : List RItem) (s : List Char) : Nat → Nat → Option Span
  | 0, _ => none
  | fuel + 1, pos =>
      match mrun (s.drop pos) items with
      | some (n, a, b) =>
          some ⟨pos, pos + n,
                match a, b with
                | some x, some y => some (pos + x, pos + y)
                | _, _ => none⟩
      | none => if pos < s.length then searchAux items s fuel (pos + 1) else none

/-- Python re.search from a given position. -/
def reSearch (items : List RItem) (s : List Char) (pos : Nat) : Option Span :=
  searchAux items s (s.length + 1 - pos) pos

/-- Python re.finditer: repeated leftmost search, resuming at the end of
    the previous match (one past it for an empty match). -/
def findIterAux (items : List RItem) (s : List Char) : Nat → Nat → List Span
  | 0, _ => []
  | fuel + 1, pos =>
      match reSearch items s pos with
      | none => []
      | some sp =>
          sp :: findIterAux items s fuel (if sp.stop = sp.start then sp.stop + 1 else sp.stop)

/-- All non-overlapping matches of a pattern, in document order. -/
def reFindIter (items : List RItem) (s : List Char) : List Span :=
  findIterAux items s (s.length + 1) 0

/-! ## resp_fmt.py -/

/-- Three literal backticks. -/
def ticks3 : List RItem := [.one (.ch '`'), .one (.ch '`'), .one (.ch '`')]

/-- The finditer pattern of extract_code_blocks, a translation of
    r"```(?:[\w-]+)?\s*?\n(.*?)\n?\s*?```" with DOTALL (an optional
    one-character-class plus is the same matcher as a greedy star). -/
def patBlocks : List RItem :=
  [.one (.ch '`'), .one (.ch '`'), .one (.ch '`'),
   .starG .wordDash, .starL .ws, .one (.ch '\n'),
   .gOpen, .starL .anyc, .gClose,
   .optG (.ch '\n'), .starL .ws,
   .one (.ch '`'), .one (.ch '`'), .one (.ch '`')]

/-- The search pattern of extract_command_text, a translation of
    r"```(?:[\w-]+)?\s*?\n?(.*?)\n?\s*?```" with DOTALL. -/
def patLoose : List RItem :=
  [.one (.ch '`'), .one (.ch '`'), .one (.ch '`'),
   .starG .wordDash, .starL .ws, .optG (.ch '\n'),
   .gOpen, .starL .anyc, .gClose,
   .optG (.ch '\n'), .starL .ws,
   .one (.ch '`'), .one (.ch '`'), .one (.ch '`')]

/-- The single-backtick fallback pattern, a translation of r"`([^`]+)`". -/
def patSingle : List RItem :=
  [.one (.ch '`'), .gOpen, .plusG (.notCh '`'), .gClose, .one (.ch '`')]

/-- The slice of the character list between two absolute offsets. -/
def sliceStr (s : List Char) (st en : Nat) : String :=
  String.mk ((s.drop st).take (en - st))

/-- extract_code_blocks from resp_fmt.py: every non-overlapping match of
    the triple-backtick pattern, each returned as its full matched text
    (group 0), in document order. -/
def extract_code_blocks (response_text : String) : List String :=
  (reFindIter patBlocks response_text.data).map
    (fun sp => sliceStr response_text.data sp.start sp.stop)

/-- The text of capture group 1 of a match (both markers are always
    traversed by the patterns used here, so the default is never taken). -/
def group1 (s : List Char) (sp : Span) : String :=
  match sp.g1 with
  | some (gs, ge) => sliceStr s gs ge
  | none => ""

/-- extract_command_text from resp_fmt.py: strip the delimiters and
    language tag; fall back to a single-backtick match, then to the
    stripped input. -/
def extract_command_text (code_block : String) : String :=
  match reSearch patLoose code_block.data 0 with
  | some sp => pyStrip (group1 code_block.data sp)
  | none =>
      match reSearch patSingle code_block.data 0 with
      | some sp => pyStrip (group1 code_block.data sp)
      | none => pyStrip code_block

/-- Python "\n".join. -/
def joinNl : List String → String
  | [] => ""
  | [p] => p
  | p :: rest => p ++ "\n" ++ joinNl rest

/-- The parts list built by the loop of format_code_blocks_for_display
    (i is the running Python enumerate index). -/
def displayParts : List String → Nat → List String
  | [], _ => []
  | b :: rest, i =>
      ("\n--- Code Block " ++ toString (i + 1) ++ " ---") ::
      pyStrip b :: "----------------------" :: displayParts rest (i + 1)

/-- format_code_blocks_for_display from resp_fmt.py. -/
def format_code_blocks_for_display (code_blocks : List String) (raw_response : String) : String :=
  match code_blocks with
  | [] => pyStrip raw_response
  | _ :: _ => joinNl (displayParts code_blocks 0)

/-- The text cli_entry_point prints for a reply: the formatted output,
    stripped before echoing. -/
def displayed_text (llm_response : String) : String :=
  pyStrip (format_code_blocks_for_display (extract_code_blocks llm_response) llm_response)


/-! ## cmd_run.py -/

/-- The whitespace set of the shlex lexer. -/
def shlexWs (c : Char) : Bool := c == ' ' || c == '\t' || c == '\r' || c == '\n'

/-- Lexer states of shlex in POSIX mode with whitespace_split: outside any
    quote, inside single or double quotes, and after a backslash seen in
    the outside or double-quote state. -/
inductive LexMode where
  | normal
  | single
  | double
  | escNormal
  | escDouble
deriving DecidableEq

/-- The shlex.split state machine (posix=True, whitespace_split=True,
    no comment handling).  cur is the token being built (distinguishing
    "no token yet" from an empty quoted token), acc the finished tokens. -/
def shlexAux : List Char → LexMode → Option (List Char) → List (List Char) →
    Except String (List (List Char))
  | [], .normal, none, acc => .ok acc
  | [], .normal, some w, acc => .ok (acc ++ [w])
  | [], .single, _, _ => .error "No closing quotation"
  | [], .double, _, _ => .error "No closing quotation"
  | [], .escNormal, _, _ => .error "No escaped character"
  | [], .escDouble, _, _ => .error "No escaped character"
  | c :: t, .normal, cur, acc =>
      if shlexWs c then
        match cur with
        | some w => shlexAux t .normal none (acc ++ [w])
        | none => shlexAux t .normal none acc
      else if c == '\'' then shlexAux t .single (some (cur.getD [])) acc
      else if c == '"' then shlexAux t .double (some (cur.getD [])) acc
      else if c == '\\' then shlexAux t .escNormal (some (cur.getD [])) acc
      else shlexAux t .normal (some (cur.getD [] ++ [c])) acc
  | c :: t, .single, cur, acc =>
      if c == '\'' then shlexAux t .normal cur acc
      else shlexAux t .single (some (cur.getD [] ++ [c])) acc
  | c :: t, .double, cur, acc =>
      if c == '"' then shlexAux t .normal cur acc
      else if c == '\\' then shlexAux t .escDouble cur acc
      else shlexAux t .double (some (cur.getD [] ++ [c])) acc
  | c :: t, .escNormal, cur, acc => shlexAux t .normal (some (cur.getD [] ++ [c])) acc
  | c :: t, .escDouble, cur, acc =>
      if c == '"' || c == '\\' then shlexAux t .double (some (cur.getD [] ++ [c])) acc
      else shlexAux t .double (some (cur.getD [] ++ ['\\', c])) acc

/-- shlex.split: the raised ValueError message, or the argv list. -/
def shlexSplit (s : String) : Except String (List String) :=
  (shlexAux s.data .normal none []).map (fun ws => ws.map String.mk)

/-- What the operating system does with an argv list: the child process
    completes with captured output and an exit status, or launching fails. -/
inductive LaunchResult where
  | completed (stdout stderr : String) (returncode : Int)
  | notFound
  | permissionDenied
  | otherFailure (excName excMsg : String)

/-- run_command from cmd_run.py, with the OS boundary as a parameter.
    Returns (stdout, stderr, returncode); stdout and stderr are None on
    the launch-failure paths. -/
def run_command (command_str : String) (os : List String → LaunchResult) :
    Option String × Option String × Int :=
  match shlexSplit command_str with
  | .error e =>
      (none, some ("Error running command \x27" ++ command_str ++ "\x27: ValueError: " ++ e), -1)
  | .ok [] => (some "", some "Empty command string", -1)
  | .ok (cmd :: rest) =>
      match os (cmd :: rest) with
      | .completed out err code => (some (pyStrip out), some (pyStrip err), code)
      | .notFound =>
          (none, some ("Error: Command not found: \x27" ++ cmd ++ "\x27. Is it installed and in PATH?"), 127)
      | .permissionDenied =>
          (none, some ("Error: Permission denied executing command: \x27" ++ cmd ++ "\x27."), 126)
      | .otherFailure n m =>
          (none, some ("Error running command \x27" ++ command_str ++ "\x27: " ++ n ++ ": " ++ m), -1)


/-! ## orchestrator_comm.py -/

/-- Python truthiness of an optional string. -/
def truthy : Option String → Bool
  | none => false
  | some s => !(s == "")

/-- The guard of call_llm_workflow on system_info_json: present, non-empty
    and different from the two-character empty-object literal. -/
def nontrivialFacts : Option String → Bool
  | none => false
  | some s => !(s == "") && !(s == "\x7b\x7d")

/-- The fenced context-facts part of the outbound message (empty when the
    facts are absent or trivial). -/
def factsPart (system_info_json : Option String) : String :=
  if nontrivialFacts system_info_json then
    "System Information:\n```json\n" ++ system_info_json.getD "" ++ "\n```\n---"
  else ""

/-- The final_message assembly of call_llm_workflow. -/
def build_final_message (msg system_info_json : Option String) : String :=
  let fm := factsPart system_info_json
  if truthy msg then
    (if !(fm == "") then fm ++ "\nUser Context/Message:\n" else fm) ++ msg.getD ""
  else if fm == "" then "Initial request."
  else fm

/-- The request record passed to the middleware function. -/
structure EngineRequest where
  product : String
  operation : String
  target : String
  mode : String
  msg : String

/-- call_llm_workflow from orchestrator_comm.py.  The dynamically imported
    middleware function is a parameter: none when the import failed, and
    otherwise a function whose exceptions are modelled as Except.error. -/
def call_llm_workflow (middleware : Option (EngineRequest → Except String String))
    (product operation mode : String) (msg system_info_json : Option String) :
    Option String :=
  match middleware with
  | none => none
  | some f =>
      match f ⟨product, operation, "local", mode, build_final_message msg system_info_json⟩ with
      | .ok r => some r
      | .error _ => none

/-! ## cli_ctrl.py -/

/-- _handle_no_code_blocks: the clarify sub-flow, with the prompt answer
    as a parameter.  Returns (next_mode, next_message, exit_flag). -/
def handle_no_code_blocks (user_input : String) : Option String × Option String × Bool :=
  if user_input = "" then (none, none, true)
  else (some "chat", some (take256 user_input), false)

/-- Python `x or alt` for the optional stdout/stderr fields. -/
def orDefault (o : Option String) (alt : String) : String :=
  match o with
  | none => alt
  | some s => if s = "" then alt else s

/-- The next_message built by _handle_command_success. -/
def success_message (stdout stderr : Option String) (executed_command : String) : String :=
  "The following command executed successfully:\n```\n" ++ executed_command ++
  "\n```\nOutput (stdout):\n" ++ orDefault stdout "[No stdout]" ++
  "\nOutput (stderr):\n" ++ orDefault stderr "[No stderr]" ++
  "\n\nPlease provide the next command or instruction based on this result."

/-- _handle_command_success. -/
def handle_command_success (stdout stderr : Option String) (executed_command : String) :
    Option String × Option String × Bool :=
  (some "execute", some (success_message stdout stderr executed_command), false)

/-- The next_message built by _handle_command_error. -/
def error_message (stdout stderr : Option String) (returncode : Int)
    (executed_command : String) : String :=
  "The following command failed:\n```\n" ++ executed_command ++
  "\n```\nExit Code: " ++ toString returncode ++
  "\nOutput (stdout):\n" ++ orDefault stdout "[No stdout]" ++
  "\nError Output (stderr):\n" ++ orDefault stderr "[No stderr]" ++
  "\n\nPlease provide corrected commands or troubleshooting steps."

/-- _handle_command_error. -/
def handle_command_error (stdout stderr : Option String) (returncode : Int)
    (executed_command : String) : Option String × Option String × Bool :=
  (some "fix", some (error_message stdout stderr returncode executed_command), false)

/-- _handle_command_confirmation, with the confirmation answer, the
    clarify prompt answer (used when falling through to
    _handle_no_code_blocks) and the OS boundary as parameters. -/
def handle_command_confirmation (code_block : String) (confirm : Bool)
    (clarify : String) (os : List String → LaunchResult) :
    Option String × Option String × Bool :=
  let command_text := extract_command_text code_block
  if command_text = "" then handle_no_code_blocks clarify
  else if confirm = false then handle_no_code_blocks clarify
  else
    let r := run_command command_text os
    if r.2.2 = 0 then handle_command_success r.1 r.2.1 command_text
    else handle_command_error r.1 r.2.1 r.2.2 command_text

/-- The per-iteration interactive and external inputs of the main loop:
    the middleware reply for this iteration, the confirmation answer, the
    clarify prompt answer, and the OS boundary. -/
structure IterInputs where
  response : Option String
  confirm : Bool
  clarify : String
  os : List String → LaunchResult

/-- How an iteration of the main loop of cli_entry_point ends the loop. -/
inductive LoopExit where
  | engineFailure
  | userExit
deriving DecidableEq

/-- One iteration of the main loop of cli_entry_point: a None reply breaks
    out with the fatal error; otherwise extract blocks, branch on their
    presence, and either exit (exit_app) or continue with the updated
    (current_mode, user_message) pair. -/
def loop_iter (inp : IterInputs) : Sum LoopExit (Option String × Option String) :=
  match inp.response with
  | none => Sum.inl .engineFailure
  | some llm_response =>
      let code_blocks := extract_code_blocks llm_response
      let r := match code_blocks with
               | [] => handle_no_code_blocks inp.clarify
               | b :: _ => handle_command_confirmation b inp.confirm inp.clarify inp.os
      if r.2.2 then Sum.inl .userExit else Sum.inr (r.1, r.2.1)

/-- The main loop, iterated over a stream of per-iteration inputs; fuel
    bounds the number of iterations, and none means the fuel ran out with
    the loop still running. -/
def cli_loop (fuel : Nat) (inputs : Nat → IterInputs) (k : Nat)
    (_state : Option String × Option String) : Option LoopExit :=
  match fuel with
  | 0 => none
  | fuel' + 1 =>
      match loop_iter (inputs k) with
      | Sum.inl e => some e
      | Sum.inr st => cli_loop fuel' inputs (k + 1) st


/-- The property that every successful match of an item list consumes a
    prefix ending in the three closing backticks. -/
def SufTicks (items : List RItem) : Prop :=
  ∀ s n a b, mrun s items = some ((n : Nat), (a : Option Nat), (b : Option Nat)) →
    ∃ p, List.take n s = p ++ ['`', '`', '`']

/-! ## Sanity checks of the embedding against the Python behaviour -/
example : extract_code_blocks "Run this:\n```bash\nls -l\n```" = ["```bash\nls -l\n```"] := by decide
example : extract_command_text "```bash\nls -l\n```" = "ls -l" := by decide
example : extract_command_text "```\nls -l\n```" = "ls -l" := by decide
example : extract_command_text "ls -l" = "ls -l" := by decide
example : extract_command_text "run `ls` now" = "ls" := by decide
example : extract_code_blocks "a\n```sh\nx\n```\nb\n```\ny\n```\n" =
    ["```sh\nx\n```", "```\ny\n```"] := by decide
example : extract_code_blocks "no fences here" = [] := by decide
example : run_command "" (fun _ => .notFound) = (some "", some "Empty command string", -1) := by decide
example : run_command "  \t " (fun _ => .notFound) = (some "", some "Empty command string", -1) := by decide
example : (run_command "foo \x27bar" (fun _ => .notFound)).2.2 = -1 := by decide
example : shlexSplit "ls -l \x27a b\x27" = .ok ["ls", "-l", "a b"] := by rfl

/-! ## Claims about cmd_run.py -/

lemma shlexAux_all_ws (l : List Char) (acc : List (List Char))
    (h : ∀ c ∈ l, shlexWs c = true) :
    shlexAux l .normal none acc = .ok acc := by
  induction l generalizing acc with
  | nil => rfl
  | cons c t ih =>
      have hc : shlexWs c = true := h c (List.mem_cons_self c t)
      simp only [shlexAux, hc, if_pos]
      exact ih acc (fun x hx => h x (List.mem_cons_of_mem c hx))

/-- Claim C4: an empty or whitespace-only command string is rejected
    immediately with stdout "", a descriptive stderr and exit code -1,
    for every behaviour of the OS boundary (no process is launched). -/
theorem c4_empty_command_rejected (s : String)
    (h : ∀ c ∈ s.data, shlexWs c = true) :
    ∀ os : List String → LaunchResult,
      run_command s os = (some "", some "Empty command string", -1) := by
  intro os
  have hs : shlexSplit s = .ok [] := by
    unfold shlexSplit
    rw [shlexAux_all_ws s.data [] h]
    rfl
  unfold run_command
  rw [hs]

/-- Witness for claim C4 at a whitespace-only command. -/
theorem c4_witness :
    run_command " \t " (fun _ => .notFound) = (some "", some "Empty command string", -1) :=
  c4_empty_command_rejected " \t " (by decide) (fun _ => .notFound)

/-- Claim C5: OS launch failures are mapped to the conventional exit
    codes 127 (not found), 126 (permission denied) and -1 (other launch
    failures), each with a descriptive error in the stderr field, and the
    exit code of a command that was found and ran is passed through. -/
theorem c5_launch_failure_codes (s cmd : String) (rest : List String)
    (os : List String → LaunchResult)
    (hs : shlexSplit s = .ok (cmd :: rest)) :
    (os (cmd :: rest) = .notFound →
      run_command s os =
        (none, some ("Error: Command not found: \x27" ++ cmd ++ "\x27. Is it installed and in PATH?"), 127))
  ∧ (os (cmd :: rest) = .permissionDenied →
      run_command s os =
        (none, some ("Error: Permission denied executing command: \x27" ++ cmd ++ "\x27."), 126))
  ∧ (∀ n m, os (cmd :: rest) = .otherFailure n m →
      run_command s os =
        (none, some ("Error running command \x27" ++ s ++ "\x27: " ++ n ++ ": " ++ m), -1))
  ∧ (∀ out err code, os (cmd :: rest) = .completed out err code →
      run_command s os = (some (pyStrip out), some (pyStrip err), code)) := by
  refine ⟨fun h => ?_, fun h => ?_, fun n m h => ?_, fun out err code h => ?_⟩ <;>
    simp [run_command, hs, h]

/-- Witness for claim C5: a not-found executable yields exit code 127. -/
theorem c5_witness :
    run_command "doesnotexist" (fun _ => .notFound) =
      (none, some ("Error: Command not found: \x27" ++ "doesnotexist" ++ "\x27. Is it installed and in PATH?"), 127) :=
  (c5_launch_failure_codes "doesnotexist" "doesnotexist" [] (fun _ => .notFound) rfl).1 rfl

/-- Claim C10: run_command is total, and a tokenization failure (such as
    an unbalanced quote) is absorbed by the generic handler as exit code
    -1 with no stdout. -/
theorem c10_total_and_tokenize_failure (s : String) (os : List String → LaunchResult) :
    (∃ out err code, run_command s os = (out, err, code))
  ∧ (∀ e, shlexSplit s = .error e →
      run_command s os =
        (none, some ("Error running command \x27" ++ s ++ "\x27: ValueError: " ++ e), -1)) := by
  constructor
  · exact ⟨_, _, _, rfl⟩
  · intro e he
    unfold run_command
    rw [he]

/-- Witness for claim C10 at a command with an unbalanced quote. -/
theorem c10_witness :
    shlexSplit "foo \x27bar" = .error "No closing quotation" ∧
    run_command "foo \x27bar" (fun _ => .notFound) =
      (none, some ("Error running command \x27" ++ "foo \x27bar" ++ "\x27: ValueError: " ++ "No closing quotation"), -1) :=
  ⟨rfl, (c10_total_and_tokenize_failure "foo \x27bar" (fun _ => .notFound)).2 "No closing quotation" rfl⟩

/-! ## Claims about the clarify sub-flow -/

lemma length_mk (l : List Char) : (String.mk l).length = l.length := rfl

lemma mk_data (s : String) : String.mk s.data = s := by
  cases s
  rfl

/-- Claim C8: in the clarify sub-flow, empty input sets the termination
    flag; non-empty input becomes the next pending message, bounded to
    256 characters, with next mode chat. -/
theorem c8_clarify_bounded (user_input : String) :
    (user_input = "" → handle_no_code_blocks user_input = (none, none, true))
  ∧ (user_input ≠ "" →
      handle_no_code_blocks user_input =
        (some "chat", some (take256 user_input), false)
      ∧ (take256 user_input).length ≤ 256
      ∧ (user_input.length ≤ 256 → take256 user_input = user_input)) := by
  constructor
  · intro h
    simp [handle_no_code_blocks, h]
  · intro h
    refine ⟨by simp [handle_no_code_blocks, h], ?_, ?_⟩
    · show (String.mk (user_input.data.take 256)).length ≤ 256
      rw [length_mk, List.length_take]
      exact min_le_left _ _
    · intro hle
      unfold take256
      rw [List.take_of_length_le hle, mk_data]

/-- Witness for claim C8 at a short non-empty input. -/
theorem c8_witness :
    handle_no_code_blocks "hello" = (some "chat", some (take256 "hello"), false) ∧
    (take256 "hello").length ≤ 256 :=
  ⟨((c8_clarify_bounded "hello").2 (by decide)).1, ((c8_clarify_bounded "hello").2 (by decide)).2.1⟩

/-! ## Claims about the transport boundary and the loop -/

/-- Claim C2: a missing middleware function or an exception raised by it
    makes call_llm_workflow return the Unavailable marker (none) instead
    of letting the failure escape, and a none reply makes the loop exit
    immediately with the fatal engine-failure condition, independently of
    any prompt answers, with no retry. -/
theorem c2_transport_failure_is_fatal :
    (∀ product operation mode msg sysinfo,
        call_llm_workflow none product operation mode msg sysinfo = none)
  ∧ (∀ (f : EngineRequest → Except String String) product operation mode msg sysinfo e,
        f ⟨product, operation, "local", mode, build_final_message msg sysinfo⟩ = .error e →
        call_llm_workflow (some f) product operation mode msg sysinfo = none)
  ∧ (∀ confirm clarify os,
        loop_iter ⟨none, confirm, clarify, os⟩ = Sum.inl .engineFailure)
  ∧ (∀ fuel inputs k st, (inputs k).response = none →
        cli_loop (fuel + 1) inputs k st = some .engineFailure) := by
  refine ⟨fun _ _ _ _ _ => rfl, ?_, fun _ _ _ => rfl, ?_⟩
  · intro f product operation mode msg sysinfo e h
    simp [call_llm_workflow, h]
  · intro fuel inputs k st h
    simp [cli_loop, loop_iter, h]

/-- Witness for claim C2: a raising middleware yields none, and a none
    reply ends the loop at once with the engine-failure exit. -/
theorem c2_witness :
    call_llm_workflow (some (fun _ => .error "boom")) "curl" "Install" "execute" none none = none ∧
    cli_loop 5 (fun _ => ⟨none, false, "", fun _ => .notFound⟩) 0 (some "execute", none) =
      some .engineFailure :=
  ⟨c2_transport_failure_is_fatal.2.1 (fun _ => .error "boom") "curl" "Install" "execute"
      none none "boom" rfl,
   c2_transport_failure_is_fatal.2.2.2 4 (fun _ => ⟨none, false, "", fun _ => .notFound⟩) 0
      (some "execute", none) rfl⟩

/-! ## Claims about the outbound message -/

lemma data_append (a b : String) : (a ++ b).data = a.data ++ b.data := rfl

lemma append_ne_empty_left (a b : String) (h : a.data ≠ []) : a ++ b ≠ "" := by
  intro hab
  apply h
  have hd := congrArg String.data hab
  rw [data_append] at hd
  exact (List.append_eq_nil.mp hd).1

lemma append_ne_empty_right (a b : String) (h : b.data ≠ []) : a ++ b ≠ "" := by
  intro hab
  apply h
  have hd := congrArg String.data hab
  rw [data_append] at hd
  exact (List.append_eq_nil.mp hd).2

lemma data_ne_nil_of_ne_empty (s : String) (h : s ≠ "") : s.data ≠ [] := by
  intro hd
  apply h
  cases s
  simp at hd
  rw [hd]


lemma str_eq_of_data (a b : String) (h : a.data = b.data) : a = b := by
  cases a
  cases b
  exact congrArg String.mk h

lemma factsPart_eq (s : String) (h : nontrivialFacts (some s) = true) :
    factsPart (some s) = "System Information:\n```json\n" ++ s ++ "\n```\n---" := by
  simp [factsPart, h]

lemma factsPart_ne (s : String) (h : nontrivialFacts (some s) = true) :
    factsPart (some s) ≠ "" := by
  rw [factsPart_eq s h]
  exact append_ne_empty_left _ _
    (data_ne_nil_of_ne_empty _ (append_ne_empty_left _ _ (by decide)))

/-- Claim C7: the outbound message prepends non-trivial context facts as a
    fenced structured block, appends a present user message after the
    separator, is exactly the fixed placeholder "Initial request." when
    both are absent, and is never empty. -/
theorem c7_outbound_message (msg system_info_json : Option String) :
    (nontrivialFacts system_info_json = false → truthy msg = false →
        build_final_message msg system_info_json = "Initial request.")
  ∧ (∀ s, system_info_json = some s → nontrivialFacts system_info_json = true →
        truthy msg = false →
        build_final_message msg system_info_json =
          "System Information:\n```json\n" ++ s ++ "\n```\n---")
  ∧ (∀ s m, system_info_json = some s → nontrivialFacts system_info_json = true →
        msg = some m → m ≠ "" →
        build_final_message msg system_info_json =
          "System Information:\n```json\n" ++ s ++ "\n```\n---" ++
          "\nUser Context/Message:\n" ++ m)
  ∧ (∀ m, msg = some m → m ≠ "" → nontrivialFacts system_info_json = false →
        build_final_message msg system_info_json = m)
  ∧ build_final_message msg system_info_json ≠ "" := by
  refine ⟨?_, ?_, ?_, ?_, ?_⟩
  · intro hf hm
    simp [build_final_message, factsPart, hf, hm]
  · intro s hs hf hm
    subst hs
    have hne : ("System Information:\n```json\n" ++ s ++ "\n```\n---" : String) ≠ "" := by
      have h2 := factsPart_ne s hf
      rwa [factsPart_eq s hf] at h2
    simp [build_final_message, hm, factsPart_eq s hf, hne]
  · intro s m hs hf hmm hmne
    subst hs
    subst hmm
    have hm : truthy (some m) = true := by simp [truthy, hmne]
    have hred :
        build_final_message (some m) (some s) =
          factsPart (some s) ++ "\nUser Context/Message:\n" ++ m := by
      simp [build_final_message, hm, factsPart_ne s hf]
    rw [hred, factsPart_eq s hf]
  · intro m hmm hmne hf
    subst hmm
    have hm : truthy (some m) = true := by simp [truthy, hmne]
    have hfp : factsPart system_info_json = "" := by
      cases system_info_json with
      | none => rfl
      | some s => simp [factsPart, hf]
    apply str_eq_of_data
    simp [build_final_message, hm, hfp]
  · cases hm : truthy msg with
    | true =>
        cases msg with
        | none => simp [truthy] at hm
        | some m =>
            have hmne : m ≠ "" := by
              intro hh
              rw [hh] at hm
              simp [truthy] at hm
            have hred :
                build_final_message (some m) system_info_json =
                  (if !(factsPart system_info_json == "") then
                      factsPart system_info_json ++ "\nUser Context/Message:\n"
                    else factsPart system_info_json) ++ m := by
              simp [build_final_message, hm]
            rw [hred]
            exact append_ne_empty_right _ _ (data_ne_nil_of_ne_empty m hmne)
    | false =>
        cases hf : nontrivialFacts system_info_json with
        | false =>
            simp [build_final_message, factsPart, hf, hm]
        | true =>
            cases system_info_json with
            | none => simp [nontrivialFacts] at hf
            | some s =>
                have hred :
                    build_final_message msg (some s) = factsPart (some s) := by
                  simp [build_final_message, hm, factsPart_ne s hf]
                rw [hred]
                exact factsPart_ne s hf

/-- Witness for claim C7: both parts present, both absent. -/
theorem c7_witness :
    build_final_message none none = "Initial request." ∧
    build_final_message (some "hi") (some "x") =
      "System Information:\n```json\n" ++ "x" ++ "\n```\n---" ++
      "\nUser Context/Message:\n" ++ "hi" :=
  ⟨(c7_outbound_message none none).1 rfl rfl,
   (c7_outbound_message (some "hi") (some "x")).2.2.1 "x" "hi" rfl (by decide) rfl (by decide)⟩

/-! ## Claim about mode derivation -/

/-- Claim C1: the next mode is a pure function of the previous outcome:
    confirmed execution with exit code 0 gives mode execute, confirmed
    execution with a nonzero exit code gives mode fix, and an unusable or
    declined command falls through to the clarify sub-flow, where the next
    mode is chat or, on empty clarify input, the loop terminates. -/
theorem c1_mode_from_outcome (code_block clarify : String) (confirm : Bool)
    (os : List String → LaunchResult) :
    (extract_command_text code_block ≠ "" → confirm = true →
        (run_command (extract_command_text code_block) os).2.2 = 0 →
        (handle_command_confirmation code_block confirm clarify os).1 = some "execute")
  ∧ (extract_command_text code_block ≠ "" → confirm = true →
        (run_command (extract_command_text code_block) os).2.2 ≠ 0 →
        (handle_command_confirmation code_block confirm clarify os).1 = some "fix")
  ∧ (extract_command_text code_block = "" ∨ confirm = false →
        handle_command_confirmation code_block confirm clarify os =
          handle_no_code_blocks clarify)
  ∧ (clarify ≠ "" →
        handle_no_code_blocks clarify = (some "chat", some (take256 clarify), false))
  ∧ (clarify = "" → handle_no_code_blocks clarify = (none, none, true)) := by
  refine ⟨?_, ?_, ?_, ?_, ?_⟩
  · intro hct hc hrc
    subst hc
    simp [handle_command_confirmation, hct, hrc, handle_command_success]
  · intro hct hc hrc
    subst hc
    simp [handle_command_confirmation, hct, hrc, handle_command_error]
  · intro h
    rcases h with h | h
    · simp [handle_command_confirmation, h]
    · subst h
      by_cases hct : extract_command_text code_block = "" <;>
        simp [handle_command_confirmation, hct]
  · intro h
    simp [handle_no_code_blocks, h]
  · intro h
    simp [handle_no_code_blocks, h]

/-- Witness for claim C1: a confirmed, successful execution yields mode
    execute. -/
theorem c1_witness :
    (handle_command_confirmation "```\nls -l\n```" true "next"
        (fun _ => .completed "ok" "" 0)).1 = some "execute" :=
  (c1_mode_from_outcome "```\nls -l\n```" "next" true
      (fun _ => .completed "ok" "" 0)).1 (by decide) rfl (by decide)

/-! ## Claim about rendering the reply -/

lemma dropWhile_head_not (p : Char → Bool) (l : List Char) :
    ∀ c, (l.dropWhile p).head? = some c → p c = false := by
  induction l with
  | nil => intro c h; simp at h
  | cons a t ih =>
      intro c h
      by_cases hp : p a
      · rw [List.dropWhile_cons, if_pos hp] at h
        exact ih c h
      · rw [List.dropWhile_cons, if_neg hp] at h
        simp at h
        rw [← h]
        simpa using hp

lemma dropWhile_of_head_not (p : Char → Bool) (l : List Char)
    (h : ∀ c, l.head? = some c → p c = false) : l.dropWhile p = l := by
  cases l with
  | nil => rfl
  | cons a t =>
      rw [List.dropWhile_cons, if_neg]
      simp [h a rfl]

lemma dropWhile_idem (p : Char → Bool) (l : List Char) :
    (l.dropWhile p).dropWhile p = l.dropWhile p :=
  dropWhile_of_head_not p _ (dropWhile_head_not p l)

lemma getLast?_rev (l : List Char) : l.reverse.getLast? = l.head? := by
  cases l with
  | nil => rfl
  | cons a t => simp [List.getLast?_concat]

lemma head?_rev (l : List Char) : l.reverse.head? = l.getLast? := by
  have h := getLast?_rev l.reverse
  rw [List.reverse_reverse] at h
  exact h.symm

lemma getLast?_dropWhile (p : Char → Bool) (m : List Char)
    (h : m.dropWhile p ≠ []) : (m.dropWhile p).getLast? = m.getLast? := by
  induction m with
  | nil => simp at h
  | cons a t ih =>
      by_cases hp : p a
      · rw [List.dropWhile_cons, if_pos hp] at h ⊢
        have ht : t ≠ [] := by
          intro hh
          rw [hh] at h
          simp at h
        obtain ⟨b, l, rfl⟩ := List.exists_cons_of_ne_nil ht
        rw [ih h, List.getLast?_cons_cons]
      · rw [List.dropWhile_cons, if_neg hp]

lemma pyStrip_data (s : String) :
    (pyStrip s).data = ((s.data.dropWhile isPyWs).reverse.dropWhile isPyWs).reverse := rfl

lemma pyStrip_idem (s : String) : pyStrip (pyStrip s) = pyStrip s := by
  apply str_eq_of_data
  rw [pyStrip_data, pyStrip_data]
  have h1 : List.dropWhile isPyWs
        (List.dropWhile isPyWs (List.dropWhile isPyWs s.data).reverse).reverse
      = (List.dropWhile isPyWs (List.dropWhile isPyWs s.data).reverse).reverse := by
    apply dropWhile_of_head_not
    intro c hc
    by_cases hz : List.dropWhile isPyWs (List.dropWhile isPyWs s.data).reverse = []
    · rw [hz] at hc
      simp at hc
    · rw [head?_rev, getLast?_dropWhile isPyWs _ hz, getLast?_rev] at hc
      exact dropWhile_head_not isPyWs s.data c hc
  rw [h1, List.reverse_reverse, dropWhile_idem]

lemma leadsWith_append (l r : List Char) : leadsWith l (l ++ r) = true := by
  induction l with
  | nil => rfl
  | cons a t ih => simp [leadsWith, ih]

lemma listContains_append_left (n h x : List Char)
    (hc : listContains n h = true) : listContains n (x ++ h) = true := by
  induction x with
  | nil => simpa using hc
  | cons a t ih => simp [listContains, ih]

lemma listContains_self_append (l r : List Char) : listContains l (l ++ r) = true := by
  cases l with
  | nil =>
      cases r with
      | nil => rfl
      | cons a t =>
          simp only [List.nil_append, listContains, Bool.or_eq_true]
          exact Or.inl rfl
  | cons a t =>
      have h := leadsWith_append (a :: t) r
      simp only [List.cons_append] at h
      simp only [List.cons_append, listContains, Bool.or_eq_true]
      exact Or.inl h

lemma mem_joinNl (b : String) (parts : List String) (hb : b ∈ parts) :
    listContains b.data (joinNl parts).data = true := by
  induction parts with
  | nil => cases hb
  | cons p rest ih =>
      cases rest with
      | nil =>
          rcases List.mem_singleton.mp hb with rfl
          have h := listContains_self_append b.data []
          rwa [List.append_nil] at h
      | cons q rest' =>
          rcases List.mem_cons.mp hb with rfl | hb'
          · show listContains b.data ((b ++ "\n" ++ joinNl (q :: rest')).data) = true
            rw [data_append, data_append, List.append_assoc]
            exact listContains_self_append _ _
          · show listContains b.data ((p ++ "\n" ++ joinNl (q :: rest')).data) = true
            rw [data_append]
            exact listContains_append_left _ _ _ (ih hb')

lemma mem_displayParts (blocks : List String) (b : String) (hb : b ∈ blocks) :
    ∀ i, pyStrip b ∈ displayParts blocks i := by
  induction blocks with
  | nil => cases hb
  | cons x xs ih =>
      intro i
      rcases List.mem_cons.mp hb with rfl | hb'
      · exact List.mem_cons_of_mem _ (List.mem_cons_self _ _)
      · exact List.mem_cons_of_mem _ (List.mem_cons_of_mem _ (List.mem_cons_of_mem _ (ih hb' (i + 1))))

/-- Counterexample to claim C9: the reply "Run this:" plus a fenced block
    has its block extracted, and the text actually displayed by
    format_code_blocks_for_display contains the block but not the prose
    "Run this:", although the raw reply does contain it. -/
theorem c9_counterexample :
    extract_code_blocks "Run this:\n```bash\nls -l\n```" = ["```bash\nls -l\n```"] ∧
    listContains "Run this:".data
      (displayed_text "Run this:\n```bash\nls -l\n```").data = false ∧
    listContains "Run this:".data "Run this:\n```bash\nls -l\n```".data = true :=
  ⟨by decide, by decide, by decide⟩

/-- Claim C9 as amended: when no blocks are found the trimmed raw reply is
    displayed; when blocks are found the display is only the numbered
    block listing (each extracted block appearing verbatim in it), and the
    reply prose outside the blocks is not part of the rendering. -/
theorem c9_display_blocks_only (llm_response : String) :
    (extract_code_blocks llm_response = [] →
        displayed_text llm_response = pyStrip llm_response)
  ∧ (∀ b bs, extract_code_blocks llm_response = b :: bs →
        format_code_blocks_for_display (extract_code_blocks llm_response) llm_response =
          joinNl (displayParts (b :: bs) 0))
  ∧ (∀ b ∈ extract_code_blocks llm_response,
        listContains (pyStrip b).data
          (format_code_blocks_for_display (extract_code_blocks llm_response) llm_response).data
          = true) := by
  refine ⟨?_, ?_, ?_⟩
  · intro h
    unfold displayed_text
    rw [h]
    show pyStrip (pyStrip llm_response) = pyStrip llm_response
    exact pyStrip_idem llm_response
  · intro b bs h
    rw [h]
    rfl
  · intro b hb
    cases hbs : extract_code_blocks llm_response with
    | nil =>
        rw [hbs] at hb
        cases hb
    | cons x xs =>
        rw [hbs] at hb
        show listContains (pyStrip b).data (joinNl (displayParts (x :: xs) 0)).data = true
        exact mem_joinNl (pyStrip b) _ (mem_displayParts (x :: xs) b hb 0)

/-- Witness for the amended claim C9 at a concrete blockless reply and a
    concrete reply with one block. -/
theorem c9_witness :
    displayed_text "  just prose  " = pyStrip "  just prose  " ∧
    listContains (pyStrip "```sh\npwd\n```").data
      (format_code_blocks_for_display
        (extract_code_blocks "see\n```sh\npwd\n```") "see\n```sh\npwd\n```").data = true :=
  ⟨(c9_display_blocks_only "  just prose  ").1 (by decide),
   (c9_display_blocks_only "see\n```sh\npwd\n```").2.2 "```sh\npwd\n```" (by decide)⟩

/-! ## Claim about the extract_command_text fallback -/

lemma mrun_head_tick_none (rest : List RItem) (s : List Char)
    (h : '`' ∉ s) : mrun s (.one (.ch '`') :: rest) = none := by
  cases s with
  | nil => rfl
  | cons c t =>
      have hc : c ≠ '`' := by
        intro hh
        exact h (hh ▸ List.mem_cons_self c t)
      show mrunCons c (mrun t) (.one (.ch '`') :: rest) = none
      simp [mrunCons, cmatch, hc]

lemma searchAux_tick_none (rest : List RItem) (s : List Char)
    (h : '`' ∉ s) : ∀ fuel pos, searchAux (.one (.ch '`') :: rest) s fuel pos = none := by
  intro fuel
  induction fuel with
  | zero => intro pos; rfl
  | succ fuel ih =>
      intro pos
      have hdrop : '`' ∉ s.drop pos := fun hm => h (List.drop_subset pos s hm)
      rw [searchAux, mrun_head_tick_none rest (s.drop pos) hdrop]
      by_cases hp : pos < s.length
      · rw [if_pos hp]
        exact ih (pos + 1)
      · rw [if_neg hp]

/-- Claim C6: on an already-stripped command string containing no fence
    characters, extract_command_text is the identity (the defensive
    fallback path). -/
theorem c6_fallback_identity (s : String)
    (hnb : '`' ∉ s.data) (hst : pyStrip s = s) :
    extract_command_text s = s := by
  unfold extract_command_text
  rw [show reSearch patLoose s.data 0 = none from
        searchAux_tick_none _ s.data hnb _ 0,
      show reSearch patSingle s.data 0 = none from
        searchAux_tick_none _ s.data hnb _ 0]
  exact hst

/-- Witness for claim C6 at a plain command string. -/
theorem c6_witness : extract_command_text "ls -l" = "ls -l" :=
  c6_fallback_identity "ls -l" (by decide) (by decide)

/-! ## Claim about extract_code_blocks: order and verbatim round-trip -/

lemma oor_eq_some {α : Type} {x y : Option α} {r : α} (h : oor x y = some r) :
    x = some r ∨ (x = none ∧ y = some r) := by
  cases x with
  | some v =>
      left
      simpa [oor] using h
  | none =>
      right
      simpa [oor] using h

lemma mrun_nil_items (s : List Char) : mrun s [] = some (0, none, none) := by
  cases s <;> rfl

lemma mrun_one_inv {cc : CCls} {rest : List RItem} {s : List Char}
    {n : Nat} {a b : Option Nat}
    (h : mrun s (.one cc :: rest) = some (n, a, b)) :
    ∃ c t n' a' b', s = c :: t ∧ cmatch cc c = true ∧
      mrun t rest = some (n', a', b') ∧ n = n' + 1 := by
  cases s with
  | nil => simp [mrun, mrunNil] at h
  | cons c t =>
      by_cases hc : cmatch cc c
      · have h' : (mrun t rest).map shift1 = some (n, a, b) := by
          simpa [mrun, mrunCons, hc] using h
        rcases Option.map_eq_some'.mp h' with ⟨⟨n', a', b'⟩, hr, hs⟩
        refine ⟨c, t, n', a', b', rfl, hc, hr, ?_⟩
        have := congrArg Prod.fst hs
        simpa [shift1] using this.symm
      · simp [mrun, mrunCons, hc] at h


lemma sufTicks_ticks3 : SufTicks ticks3 := by
  intro s n a b h
  obtain ⟨c1, t1, n1, a1, b1, rfl, hc1, h1, rfl⟩ := mrun_one_inv h
  obtain ⟨c2, t2, n2, a2, b2, rfl, hc2, h2, rfl⟩ := mrun_one_inv h1
  obtain ⟨c3, t3, n3, a3, b3, rfl, hc3, h3, rfl⟩ := mrun_one_inv h2
  rw [mrun_nil_items] at h3
  have hn3 : n3 = 0 := by
    have h3' := Option.some.inj h3
    simpa using (congrArg Prod.fst h3').symm
  have hc1' : c1 = '`' := by simpa [cmatch] using hc1
  have hc2' : c2 = '`' := by simpa [cmatch] using hc2
  have hc3' : c3 = '`' := by simpa [cmatch] using hc3
  subst hc1' hc2' hc3' hn3
  exact ⟨[], by simp [List.take_succ_cons]⟩

lemma sufTicks_one (cc : CCls) (rest : List RItem) (h : SufTicks rest) :
    SufTicks (.one cc :: rest) := by
  intro s n a b hm
  obtain ⟨c, t, n', a', b', rfl, hc, hrest, rfl⟩ := mrun_one_inv hm
  obtain ⟨p, hp⟩ := h t n' a' b' hrest
  exact ⟨c :: p, by simp [List.take_succ_cons, hp]⟩

lemma mrun_gOpen (s : List Char) (rest : List RItem) :
    mrun s (.gOpen :: rest) = (mrun s rest).map (fun r => (r.1, some 0, r.2.2)) := by
  cases s <;> rfl

lemma mrun_gClose (s : List Char) (rest : List RItem) :
    mrun s (.gClose :: rest) = (mrun s rest).map (fun r => (r.1, r.2.1, some 0)) := by
  cases s <;> rfl

lemma sufTicks_gOpen (rest : List RItem) (h : SufTicks rest) :
    SufTicks (.gOpen :: rest) := by
  intro s n a b hm
  rw [mrun_gOpen] at hm
  rcases Option.map_eq_some'.mp hm with ⟨⟨n1, a1, b1⟩, hr, hs⟩
  have hn : n = n1 := by
    have := congrArg Prod.fst hs
    simpa using this.symm
  rw [hn]
  exact h s n1 a1 b1 hr

lemma sufTicks_gClose (rest : List RItem) (h : SufTicks rest) :
    SufTicks (.gClose :: rest) := by
  intro s n a b hm
  rw [mrun_gClose] at hm
  rcases Option.map_eq_some'.mp hm with ⟨⟨n1, a1, b1⟩, hr, hs⟩
  have hn : n = n1 := by
    have := congrArg Prod.fst hs
    simpa using this.symm
  rw [hn]
  exact h s n1 a1 b1 hr

lemma take_cons_ticks {t : List Char} {n' : Nat} (c : Char)
    (hp : ∃ p, List.take n' t = p ++ ['`', '`', '`']) :
    ∃ p, List.take (n' + 1) (c :: t) = p ++ ['`', '`', '`'] := by
  obtain ⟨p, hp⟩ := hp
  exact ⟨c :: p, by simp [List.take_succ_cons, hp]⟩

lemma sufTicks_optG (cc : CCls) (rest : List RItem) (h : SufTicks rest) :
    SufTicks (.optG cc :: rest) := by
  intro s n a b hm
  cases s with
  | nil =>
      have hm' : mrun ([] : List Char) rest = some (n, a, b) := hm
      exact h [] n a b hm'
  | cons c t =>
      by_cases hc : cmatch cc c
      · have hm' : oor ((mrun t rest).map shift1) (mrun (c :: t) rest) = some (n, a, b) := by
          simpa [mrun, mrunCons, hc] using hm
        rcases oor_eq_some hm' with hl | ⟨-, hr⟩
        · rcases Option.map_eq_some'.mp hl with ⟨⟨n1, a1, b1⟩, hr1, hs1⟩
          have hn : n = n1 + 1 := by
            have := congrArg Prod.fst hs1
            simpa [shift1] using this.symm
          subst hn
          exact take_cons_ticks c (h t n1 a1 b1 hr1)
        · exact h (c :: t) n a b hr
      · have hm' : mrun (c :: t) rest = some (n, a, b) := by
          simpa [mrun, mrunCons, hc] using hm
        exact h (c :: t) n a b hm'

lemma sufTicks_starL (cc : CCls) (rest : List RItem) (h : SufTicks rest) :
    SufTicks (.starL cc :: rest) := by
  intro s
  induction s with
  | nil =>
      intro n a b hm
      have hm' : mrun ([] : List Char) rest = some (n, a, b) := hm
      exact h [] n a b hm'
  | cons c t ih =>
      intro n a b hm
      have hm' : oor (mrun (c :: t) rest)
          (if cmatch cc c then (mrun t (.starL cc :: rest)).map shift1 else none)
            = some (n, a, b) := hm
      rcases oor_eq_some hm' with hl | ⟨-, hr⟩
      · exact h (c :: t) n a b hl
      · by_cases hc : cmatch cc c
        · rw [if_pos hc] at hr
          rcases Option.map_eq_some'.mp hr with ⟨⟨n1, a1, b1⟩, hr1, hs1⟩
          have hn : n = n1 + 1 := by
            have := congrArg Prod.fst hs1
            simpa [shift1] using this.symm
          subst hn
          exact take_cons_ticks c (ih n1 a1 b1 hr1)
        · rw [if_neg hc] at hr
          cases hr

lemma sufTicks_starG (cc : CCls) (rest : List RItem) (h : SufTicks rest) :
    SufTicks (.starG cc :: rest) := by
  intro s
  induction s with
  | nil =>
      intro n a b hm
      have hm' : mrun ([] : List Char) rest = some (n, a, b) := hm
      exact h [] n a b hm'
  | cons c t ih =>
      intro n a b hm
      have hm' : oor (if cmatch cc c then (mrun t (.starG cc :: rest)).map shift1 else none)
          (mrun (c :: t) rest) = some (n, a, b) := hm
      rcases oor_eq_some hm' with hl | ⟨-, hr⟩
      · by_cases hc : cmatch cc c
        · rw [if_pos hc] at hl
          rcases Option.map_eq_some'.mp hl with ⟨⟨n1, a1, b1⟩, hr1, hs1⟩
          have hn : n = n1 + 1 := by
            have := congrArg Prod.fst hs1
            simpa [shift1] using this.symm
          subst hn
          exact take_cons_ticks c (ih n1 a1 b1 hr1)
        · rw [if_neg hc] at hl
          cases hl
      · exact h (c :: t) n a b hr

lemma sufTicks_patBlocks : SufTicks patBlocks := by
  show SufTicks
    [.one (.ch '`'), .one (.ch '`'), .one (.ch '`'),
     .starG .wordDash, .starL .ws, .one (.ch '\n'),
     .gOpen, .starL .anyc, .gClose,
     .optG (.ch '\n'), .starL .ws,
     .one (.ch '`'), .one (.ch '`'), .one (.ch '`')]
  exact sufTicks_one _ _ (sufTicks_one _ _ (sufTicks_one _ _ (sufTicks_starG _ _
    (sufTicks_starL _ _ (sufTicks_one _ _ (sufTicks_gOpen _ (sufTicks_starL _ _
      (sufTicks_gClose _ (sufTicks_optG _ _ (sufTicks_starL _ _ sufTicks_ticks3))))))))))

lemma mrun_patBlocks_ticks {s : List Char} {n : Nat} {a b : Option Nat}
    (h : mrun s patBlocks = some (n, a, b)) :
    ∃ t m, s = '`' :: '`' :: '`' :: t ∧ n = m + 3 := by
  have h' : mrun s (.one (.ch '`') :: .one (.ch '`') :: .one (.ch '`') ::
      [.starG .wordDash, .starL .ws, .one (.ch '\n'),
       .gOpen, .starL .anyc, .gClose,
       .optG (.ch '\n'), .starL .ws,
       .one (.ch '`'), .one (.ch '`'), .one (.ch '`')]) = some (n, a, b) := h
  obtain ⟨c1, t1, n1, a1, b1, rfl, hc1, h1, rfl⟩ := mrun_one_inv h'
  obtain ⟨c2, t2, n2, a2, b2, rfl, hc2, h2, rfl⟩ := mrun_one_inv h1
  obtain ⟨c3, t3, n3, a3, b3, rfl, hc3, h3, rfl⟩ := mrun_one_inv h2
  have hc1' : c1 = '`' := by simpa [cmatch] using hc1
  have hc2' : c2 = '`' := by simpa [cmatch] using hc2
  have hc3' : c3 = '`' := by simpa [cmatch] using hc3
  subst hc1' hc2' hc3'
  exact ⟨t3, n3, rfl, rfl⟩

lemma searchAux_inv (items : List RItem) (s : List Char) :
    ∀ fuel pos sp, searchAux items s fuel pos = some sp →
      pos ≤ sp.start ∧
      ∃ n a b, mrun (s.drop sp.start) items = some (n, a, b) ∧ sp.stop = sp.start + n := by
  intro fuel
  induction fuel with
  | zero =>
      intro pos sp h
      simp [searchAux] at h
  | succ fuel ih =>
      intro pos sp h
      rw [searchAux] at h
      cases hm : mrun (s.drop pos) items with
      | some r =>
          obtain ⟨n, a, b⟩ := r
          rw [hm] at h
          have hsp := Option.some.inj h
          refine ⟨?_, n, a, b, ?_, ?_⟩
          · rw [← hsp]
          · rw [← hsp]
            exact hm
          · rw [← hsp]
      | none =>
          rw [hm] at h
          by_cases hp : pos < s.length
          · rw [if_pos hp] at h
            obtain ⟨h1, h2⟩ := ih (pos + 1) sp h
            exact ⟨Nat.le_of_succ_le h1, h2⟩
          · rw [if_neg hp] at h
            cases h

lemma reSearch_inv (items : List RItem) (s : List Char) (pos : Nat) (sp : Span)
    (h : reSearch items s pos = some sp) :
    pos ≤ sp.start ∧
    ∃ n a b, mrun (s.drop sp.start) items = some (n, a, b) ∧ sp.stop = sp.start + n :=
  searchAux_inv items s _ pos sp h

lemma findIterAux_inv (items : List RItem) (s : List Char) :
    ∀ fuel pos,
      (∀ sp ∈ findIterAux items s fuel pos,
          pos ≤ sp.start ∧
          ∃ n a b, mrun (s.drop sp.start) items = some (n, a, b) ∧ sp.stop = sp.start + n)
      ∧ List.Chain' (fun x y => x.stop ≤ y.start ∧ x.start < y.start)
          (findIterAux items s fuel pos) := by
  intro fuel
  induction fuel with
  | zero =>
      intro pos
      constructor
      · intro sp hsp
        simp [findIterAux] at hsp
      · simp [findIterAux]
  | succ fuel ih =>
      intro pos
      rw [findIterAux]
      cases hs : reSearch items s pos with
      | none =>
          constructor
          · intro sp hsp
            simp at hsp
          · simp
      | some sp =>
          obtain ⟨hle, n, a, b, hm, hstop⟩ := reSearch_inv items s pos sp hs
          have hps : sp.start ≤ sp.stop := by omega
          have hnext : sp.stop ≤ (if sp.stop = sp.start then sp.stop + 1 else sp.stop) := by
            split <;> omega
          have hnext2 : sp.start < (if sp.stop = sp.start then sp.stop + 1 else sp.stop) := by
            split <;> omega
          constructor
          · intro x hx
            rcases List.mem_cons.mp hx with rfl | hx'
            · exact ⟨hle, n, a, b, hm, hstop⟩
            · obtain ⟨h1, h2⟩ := (ih _).1 x hx'
              exact ⟨by omega, h2⟩
          · show List.Chain' (fun x y => x.stop ≤ y.start ∧ x.start < y.start)
                (sp :: findIterAux items s fuel
                  (if sp.stop = sp.start then sp.stop + 1 else sp.stop))
            cases ht : findIterAux items s fuel
                (if sp.stop = sp.start then sp.stop + 1 else sp.stop) with
            | nil => simp
            | cons y ys =>
                have hy : y ∈ findIterAux items s fuel
                    (if sp.stop = sp.start then sp.stop + 1 else sp.stop) := by
                  rw [ht]
                  exact List.mem_cons_self y ys
                have hy1 := ((ih _).1 y hy).1
                have hchain := (ih (if sp.stop = sp.start then sp.stop + 1 else sp.stop)).2
                rw [ht] at hchain
                refine List.chain'_cons.mpr ⟨⟨?_, ?_⟩, hchain⟩ <;> omega

/-- Claim C3: extract_code_blocks returns one block per non-overlapping
    match, in document order (strictly increasing, non-overlapping
    spans), and every returned block is a verbatim contiguous substring of
    the reply that still begins and ends with its own triple-backtick
    delimiters. -/
theorem c3_blocks_order_round_trip (response_text : String) :
    (∃ spans : List (Nat × Nat),
        extract_code_blocks response_text =
          spans.map (fun pr => sliceStr response_text.data pr.1 pr.2) ∧
        List.Chain' (fun pr qr => pr.2 ≤ qr.1 ∧ pr.1 < qr.1) spans)
  ∧ ∀ blk ∈ extract_code_blocks response_text,
      (∃ pre suf, response_text.data = pre ++ blk.data ++ suf) ∧
      (∃ r, blk.data = '`' :: '`' :: '`' :: r) ∧
      (∃ p, blk.data = p ++ ['`', '`', '`']) := by
  have hinv := findIterAux_inv patBlocks response_text.data (response_text.data.length + 1) 0
  constructor
  · refine ⟨(reFindIter patBlocks response_text.data).map (fun sp => (sp.start, sp.stop)), ?_, ?_⟩
    · rw [extract_code_blocks, List.map_map]
      rfl
    · rw [List.chain'_map]
      exact hinv.2
  · intro blk hblk
    rcases List.mem_map.mp hblk with ⟨sp, hmem, rfl⟩
    obtain ⟨-, n, a, b, hm, hstop⟩ := hinv.1 sp hmem
    have hlen : sp.stop - sp.start = n := by omega
    have hdata : (sliceStr response_text.data sp.start sp.stop).data
        = List.take n (List.drop sp.start response_text.data) := by
      show List.take (sp.stop - sp.start) (List.drop sp.start response_text.data)
          = List.take n (List.drop sp.start response_text.data)
      rw [hlen]
    refine ⟨?_, ?_, ?_⟩
    · refine ⟨List.take sp.start response_text.data,
        List.drop n (List.drop sp.start response_text.data), ?_⟩
      rw [hdata]
      have h2 := (List.take_append_drop n (List.drop sp.start response_text.data)).symm
      calc response_text.data
          = List.take sp.start response_text.data ++
              List.drop sp.start response_text.data :=
            (List.take_append_drop sp.start response_text.data).symm
        _ = List.take sp.start response_text.data ++
              (List.take n (List.drop sp.start response_text.data) ++
               List.drop n (List.drop sp.start response_text.data)) := by
            conv_lhs => rw [h2]
        _ = List.take sp.start response_text.data ++
              List.take n (List.drop sp.start response_text.data) ++
              List.drop n (List.drop sp.start response_text.data) :=
            (List.append_assoc _ _ _).symm
    · obtain ⟨t, m, hdrop, hnm⟩ := mrun_patBlocks_ticks hm
      refine ⟨List.take m t, ?_⟩
      rw [hdata, hdrop, hnm]
      rw [show m + 3 = (m + 2) + 1 from rfl, List.take_succ_cons,
          show m + 2 = (m + 1) + 1 from rfl, List.take_succ_cons, List.take_succ_cons]
    · have hSuf := sufTicks_patBlocks (List.drop sp.start response_text.data) n a b hm
      rw [hdata]
      exact hSuf

/-- Witness for claim C3 at a concrete reply with one block. -/
theorem c3_witness :
    (∃ r, ("```sh\nx\n```" : String).data = '`' :: '`' :: '`' :: r) ∧
    (∃ pre suf, ("a\n```sh\nx\n```\nb" : String).data =
        pre ++ ("```sh\nx\n```" : String).data ++ suf) := by
  have h := (c3_blocks_order_round_trip "a\n```sh\nx\n```\nb").2 "```sh\nx\n```" (by decide)
  exact ⟨h.2.1, h.1⟩
